import Mathlib

/-!
Verification of the nansen-skill trading-intelligence core against its
natural-language specification.

The definitions below are a shallow embedding of the TypeScript sources:
* `src/cache.ts` (`Cache`),
* `src/rate-limiter.ts` (`RateLimiter`),
* `src/signal-log.ts` (`SignalLog`),
* `src/trader.ts` (`NansenTrader` risk pipeline).

JavaScript numbers are modelled as `ℚ`, JS `Map<string, T>` as an
association list with first-match lookup and in-place replacement
(preserving insertion order, as JS `Map` does), and JS truthiness on an
optional number (`undefined` and `0` are falsy) as an explicit
present-and-nonzero test. Wall-clock reads (`Date.now()`,
`new Date().toISOString()`) are passed in as explicit parameters, and the
persisted-dedup lookup `SignalLog.hasRecentSignal` consulted by the
pipeline is passed in as an opaque predicate parameter (the spec's "stub
dedup predicate").
-/

namespace NansenSkill

/-! ## Association-list model of a JS `Map<string, α>` -/

/-- First-match lookup, the model of `Map.get`. -/
def mapGet {α : Type} (st : List (String × α)) (k : String) : Option α :=
  match st with
  | [] => none
  | (k1, v) :: rest => if k1 = k then some v else mapGet rest k

/-- The model of `Map.set`: replace the first binding of `k` in place
(JS `Map.set` keeps the original insertion position), append otherwise. -/
def mapSet {α : Type} (st : List (String × α)) (k : String) (v : α) :
    List (String × α) :=
  match st with
  | [] => [(k, v)]
  | (k1, v1) :: rest =>
    if k1 = k then (k, v) :: rest else (k1, v1) :: mapSet rest k v

/-- The model of `Map.delete`: remove the first binding of `k`. -/
def mapDelete {α : Type} (st : List (String × α)) (k : String) :
    List (String × α) :=
  match st with
  | [] => []
  | (k1, v1) :: rest => if k1 = k then rest else (k1, v1) :: mapDelete rest k

/-- Number of bindings of key `k`. -/
def countKey {α : Type} (st : List (String × α)) (k : String) : Nat :=
  match st with
  | [] => 0
  | (k1, _) :: rest => (if k1 = k then 1 else 0) + countKey rest k

/-! ## Data model: candidates, outcomes and logged signals

`OpportunitySignal` embeds the interface of the same name from
`src/types.ts`; `metrics : Record<string, number>` becomes an association
list of rationals. -/

structure OpportunitySignal where
  type : String
  token : String
  symbol : String
  chain : String
  score : ℚ
  reason : String
  metrics : List (String × ℚ)
  timestamp : String
deriving Repr, DecidableEq

/-- `SignalOutcome` from `src/signal-log.ts`. In the source every field of
a merged outcome can be absent (the code casts a spread of partial
records), so every field is optional here. -/
structure SignalOutcome where
  action : Option String := none
  executedAt : Option String := none
  entryPrice : Option ℚ := none
  exitPrice : Option ℚ := none
  pnl : Option ℚ := none
  pnlPercent : Option ℚ := none
  notes : Option String := none
deriving Repr, DecidableEq

/-- `LoggedSignal` from `src/signal-log.ts`: the spread candidate fields
are kept as one `signal` component. -/
structure LoggedSignal where
  signal : OpportunitySignal
  id : String
  loggedAt : String
  acted : Bool
  outcome : Option SignalOutcome := none
deriving Repr, DecidableEq

/-- The `SignalLog`'s `signals` map. -/
abbrev Store : Type := List (String × LoggedSignal)

/-- `generateId`:  `chain:token:type:timestamp`. -/
def generateId (s : OpportunitySignal) : String :=
  s.chain ++ ":" ++ s.token ++ ":" ++ s.type ++ ":" ++ s.timestamp

/-- `SignalLog.log`: computes the id, returns the stored record if present,
otherwise inserts a fresh one with `acted := false`. `now` models
`new Date().toISOString()`. -/
def SignalLog.log (st : Store) (s : OpportunitySignal) (now : String) :
    LoggedSignal × Store :=
  let id := generateId s
  match mapGet st id with
  | some existing => (existing, st)
  | none =>
    let logged : LoggedSignal :=
      { signal := s, id := id, loggedAt := now, acted := false }
    (logged, mapSet st id logged)

/-- `SignalLog.markActed`: sets `acted := true` and replaces `outcome` with
a minimal outcome record holding `action`, `executedAt` and `notes`. -/
def SignalLog.markActed (st : Store) (id : String) (action : String)
    (notes : Option String) (now : String) : Option LoggedSignal × Store :=
  match mapGet st id with
  | none => (none, st)
  | some sig =>
    let sig2 : LoggedSignal :=
      { sig with
        acted := true,
        outcome := some { action := some action, executedAt := some now,
                          notes := notes } }
    (some sig2, mapSet st id sig2)

/-- Per-field behaviour of a JS object spread: the patch field wins when
present, otherwise the base field is kept. -/
def orKeep {β : Type} (pa ba : Option β) : Option β :=
  match pa with
  | some v => some v
  | none => ba

/-- The spread of the patch over `signal.outcome` in `recordOutcome`:
fields given by the patch win, absent patch fields keep the existing value
(an absent existing outcome behaves as the empty record). -/
def mergeOutcome (old : Option SignalOutcome) (patch : SignalOutcome) :
    SignalOutcome :=
  let base := old.getD {}
  { action := orKeep patch.action base.action
    executedAt := orKeep patch.executedAt base.executedAt
    entryPrice := orKeep patch.entryPrice base.entryPrice
    exitPrice := orKeep patch.exitPrice base.exitPrice
    pnl := orKeep patch.pnl base.pnl
    pnlPercent := orKeep patch.pnlPercent base.pnlPercent
    notes := orKeep patch.notes base.notes }

/-- JS truthiness of an optional number: `undefined` and `0` are falsy. -/
def truthyNum : Option ℚ → Bool
  | none => false
  | some v => decide (v ≠ 0)

/-- The pnl derivation in `recordOutcome`:
`if (signal.outcome.entryPrice && signal.outcome.exitPrice)` is a JS
truthiness test, so a price of `0` does not trigger the recomputation. -/
def derivePnl (o : SignalOutcome) : SignalOutcome :=
  if truthyNum o.entryPrice && truthyNum o.exitPrice then
    { o with
        pnl := some (o.exitPrice.getD 0 - o.entryPrice.getD 0),
        pnlPercent := some ((o.exitPrice.getD 0 - o.entryPrice.getD 0)
          / o.entryPrice.getD 0 * 100) }
  else o

/-- `SignalLog.recordOutcome`: merge the patch into the existing outcome
and derive pnl/pnlPercent; an unknown id is a no-op returning `none`. -/
def SignalLog.recordOutcome (st : Store) (id : String)
    (patch : SignalOutcome) : Option LoggedSignal × Store :=
  match mapGet st id with
  | none => (none, st)
  | some sig =>
    let o := derivePnl (mergeOutcome sig.outcome patch)
    let sig2 : LoggedSignal := { sig with outcome := some o }
    (some sig2, mapSet st id sig2)

/-- Representation invariant of the `signals` map: keys are distinct and
every stored record's `id` field equals its key. -/
def StoreWF (st : Store) : Prop :=
  (st.map Prod.fst).Nodup ∧ ∀ p ∈ st, (p : String × LoggedSignal).2.id = p.1

/-! ## Mutation sequences on the store (for the forward-transition claim) -/

/-- One mutating call on the `SignalLog`. -/
inductive StoreOp where
  | mark (id : String) (action : String) (notes : Option String)
      (now : String)
  | record (id : String) (patch : SignalOutcome)

/-- Effect of one mutating call on the store. -/
def applyOp (st : Store) : StoreOp → Store
  | StoreOp.mark id a n now => (SignalLog.markActed st id a n now).2
  | StoreOp.record id p => (SignalLog.recordOutcome st id p).2

/-- Effect of a sequence of mutating calls. -/
def applyOps (st : Store) (ops : List StoreOp) : Store :=
  ops.foldl applyOp st

/-- Whether an operation is a `recordOutcome` call. -/
def StoreOp.isRecord : StoreOp → Bool
  | StoreOp.record _ _ => true
  | _ => false

/-- Field-wise forward order on optional outcomes: every field that is set
on the left is still set on the right, and a present outcome never becomes
absent. -/
def OutcomeLE (old new : Option SignalOutcome) : Prop :=
  match old, new with
  | none, _ => True
  | some _, none => False
  | some o, some o2 =>
    (o.action.isSome → o2.action.isSome) ∧
    (o.executedAt.isSome → o2.executedAt.isSome) ∧
    (o.entryPrice.isSome → o2.entryPrice.isSome) ∧
    (o.exitPrice.isSome → o2.exitPrice.isSome) ∧
    (o.pnl.isSome → o2.pnl.isSome) ∧
    (o.pnlPercent.isSome → o2.pnlPercent.isSome) ∧
    (o.notes.isSome → o2.notes.isSome)

/-- Frame of a stored signal under mutation: everything except `acted` and
`outcome` is unchanged and `acted` never goes back from `true`. -/
def SigFrameOK (sig sig2 : LoggedSignal) : Prop :=
  sig2.signal = sig.signal ∧ sig2.id = sig.id ∧
  sig2.loggedAt = sig.loggedAt ∧ (sig.acted = true → sig2.acted = true)

/-! ## Risk pipeline (`src/trader.ts`) -/

/-- `RiskConfig`; optional thresholds are absent when not configured. -/
structure RiskConfig where
  minScore : ℚ
  maxSignalsPerScan : ℕ
  dedupeWindowMs : ℚ
  allowedChains : Option (List String) := none
  excludedChains : Option (List String) := none
  minLiquidity : Option ℚ := none
  minHolders : Option ℚ := none
  maxMcap : Option ℚ := none
  minMcap : Option ℚ := none
  minSmartMoneyBuyers : Option ℚ := none
  minNetflowUsd : Option ℚ := none
  minFreshWallets : Option ℚ := none
deriving Repr, DecidableEq

/-- `DEFAULT_RISK_CONFIG` from `src/trader.ts`. -/
def DEFAULT_RISK_CONFIG : RiskConfig :=
  { minScore := 2, maxSignalsPerScan := 10,
    dedupeWindowMs := 60 * 60 * 1000,
    minLiquidity := some 10000, minHolders := some 100,
    minSmartMoneyBuyers := some 3, minNetflowUsd := some 10000,
    minFreshWallets := some 5 }

/-- Lookup of one entry of the `metrics` record. -/
def getMetric (s : OpportunitySignal) (k : String) : Option ℚ :=
  mapGet s.metrics k

/-- The guard `risk.minSmartMoneyBuyers && m.buyers &&
m.buyers < risk.minSmartMoneyBuyers`: both the configured threshold and the
metric must be present and nonzero (JS truthiness) for the comparison to
fire. -/
def buyersTrip (r : RiskConfig) (s : OpportunitySignal) : Bool :=
  match r.minSmartMoneyBuyers, getMetric s "buyers" with
  | some t, some v => decide (t ≠ 0) && decide (v ≠ 0) && decide (v < t)
  | _, _ => false

/-- The guard `risk.minNetflowUsd && m.netflow24h &&
Math.abs(m.netflow24h) < risk.minNetflowUsd`. -/
def netflowTrip (r : RiskConfig) (s : OpportunitySignal) : Bool :=
  match r.minNetflowUsd, getMetric s "netflow24h" with
  | some t, some v => decide (t ≠ 0) && decide (v ≠ 0) && decide (|v| < t)
  | _, _ => false

/-- The guard `risk.minFreshWallets && m.freshWallets &&
m.freshWallets < risk.minFreshWallets`. -/
def freshTrip (r : RiskConfig) (s : OpportunitySignal) : Bool :=
  match r.minFreshWallets, getMetric s "freshWallets" with
  | some t, some v => decide (t ≠ 0) && decide (v ≠ 0) && decide (v < t)
  | _, _ => false

/-- Body of the filter predicate of `applyRiskFilters`. -/
def passesRiskFilter (r : RiskConfig) (s : OpportunitySignal) : Bool :=
  if s.score < r.minScore then false
  else if buyersTrip r s then false
  else if netflowTrip r s then false
  else if freshTrip r s then false
  else true

/-- `applyRiskFilters`. -/
def applyRiskFilters (r : RiskConfig) (ss : List OpportunitySignal) :
    List OpportunitySignal :=
  ss.filter (passesRiskFilter r)

/-- Intra-batch dedup key: `chain:token` (the mode is not part of it). -/
def dedupKey (s : OpportunitySignal) : String := s.chain ++ ":" ++ s.token

/-- One iteration of the loop of `deduplicateSignals`. `hasRecent` stands
for `this.signalLog.hasRecentSignal(signal, windowMs)`. -/
def dedupStep (hasRecent : OpportunitySignal → Bool)
    (seen : List (String × OpportunitySignal)) (s : OpportunitySignal) :
    List (String × OpportunitySignal) :=
  if hasRecent s then seen
  else
    match mapGet seen (dedupKey s) with
    | none => mapSet seen (dedupKey s) s
    | some existing =>
      if existing.score < s.score then mapSet seen (dedupKey s) s else seen

/-- `deduplicateSignals`: fold the batch through the `seen` map and return
its values in insertion order. -/
def deduplicateSignals (hasRecent : OpportunitySignal → Bool)
    (signals : List OpportunitySignal) : List OpportunitySignal :=
  (signals.foldl (dedupStep hasRecent) []).map Prod.snd

/-- `SuggestedAction` from `src/trader.ts` (enums as strings). -/
structure SuggestedAction where
  action : String
  urgency : String
  reasoning : String
  targetChain : String
  targetToken : String
  positionSizeHint : String
deriving Repr, DecidableEq

/-- `TradingSignal`: a `LoggedSignal` plus the computed risk annotation. -/
structure TradingSignal where
  signal : OpportunitySignal
  id : String
  loggedAt : String
  acted : Bool
  outcome : Option SignalOutcome := none
  riskScore : ℤ
  riskFactors : List String
  recommendation : String
  confidence : ℚ
  suggestedAction : Option SuggestedAction := none
deriving Repr, DecidableEq

/-- `m.buyers && m.sellers && m.buyers > m.sellers * 2`. -/
def ratioBoost (s : OpportunitySignal) : Bool :=
  match getMetric s "buyers", getMetric s "sellers" with
  | some b, some sl => decide (b ≠ 0) && decide (sl ≠ 0) && decide (sl * 2 < b)
  | _, _ => false

/-- `m.netflow24h && m.netflow24h > 100000`. -/
def netflowBoost (s : OpportunitySignal) : Bool :=
  match getMetric s "netflow24h" with
  | some n => decide (n ≠ 0) && decide (100000 < n)
  | none => false

/-- `m.sellers && m.buyers && m.sellers > m.buyers`. -/
def sellerPenalty (s : OpportunitySignal) : Bool :=
  match getMetric s "sellers", getMetric s "buyers" with
  | some sl, some b => decide (sl ≠ 0) && decide (b ≠ 0) && decide (b < sl)
  | _, _ => false

/-- `+2` for `score > 5`, else `+1` for `score > 3`. -/
def scoreBase (s : OpportunitySignal) : ℤ :=
  if 5 < s.score then 2 else if 3 < s.score then 1 else 0

/-- The integer `riskScore` summed in `scoreSignals`. -/
def riskScoreOf (s : OpportunitySignal) : ℤ :=
  scoreBase s + (if ratioBoost s then 1 else 0)
    + (if netflowBoost s then 1 else 0)
    - (if sellerPenalty s then 1 else 0)

/-- The `riskFactors` strings pushed by `scoreSignals`, in push order. -/
def riskFactorsOf (s : OpportunitySignal) : List String :=
  (if ratioBoost s then ["Strong buyer/seller ratio"] else []) ++
  (if netflowBoost s then ["High netflow"] else []) ++
  (if sellerPenalty s then ["More sellers than buyers"] else [])

/-- The recommendation ladder on `riskScore`. -/
def recommendationOf (rs : ℤ) : String :=
  if 3 ≤ rs then "strong_buy"
  else if 1 ≤ rs then "buy"
  else if 0 ≤ rs then "watch"
  else "avoid"

/-- The confidence ladder on `riskScore` (`0.8 / 0.6 / 0.4 / 0.3`). -/
def confidenceOf (rs : ℤ) : ℚ :=
  if 3 ≤ rs then 8/10
  else if 1 ≤ rs then 6/10
  else if 0 ≤ rs then 4/10
  else 3/10

/-- The `suggestedAction` synthesized for `strong_buy`/`buy`;
`riskFactors.join('; ') || 'Positive signal detected'` falls back exactly
when the joined string is empty. -/
def suggestedActionOf (s : OpportunitySignal) (rcm : String)
    (factors : List String) : Option SuggestedAction :=
  if rcm = "strong_buy" ∨ rcm = "buy" then
    let joined := String.intercalate "; " factors
    some { action := "buy",
           urgency := if rcm = "strong_buy" then "high" else "medium",
           reasoning := if joined = "" then "Positive signal detected"
                        else joined,
           targetChain := s.chain,
           targetToken := s.token,
           positionSizeHint := if rcm = "strong_buy" then "medium"
                               else "small" }
  else none

/-- The per-candidate body of `scoreSignals`; `now` models
`new Date().toISOString()`. -/
def scoreSignal (now : String) (s : OpportunitySignal) : TradingSignal :=
  let rs := riskScoreOf s
  let factors := riskFactorsOf s
  let rcm := recommendationOf rs
  { signal := s,
    id := s.chain ++ ":" ++ s.token ++ ":" ++ s.type ++ ":" ++ s.timestamp,
    loggedAt := now,
    acted := false,
    outcome := none,
    riskScore := rs,
    riskFactors := factors,
    recommendation := rcm,
    confidence := confidenceOf rs,
    suggestedAction := suggestedActionOf s rcm factors }

/-- The ranking order of `scoreSignals`: the JS comparator
`b.riskScore - a.riskScore || b.score - a.score` puts `a` before `b`
exactly when this relation holds. -/
def rankRel (a b : TradingSignal) : Prop :=
  b.riskScore < a.riskScore ∨
    (a.riskScore = b.riskScore ∧ b.signal.score ≤ a.signal.score)

instance : DecidableRel rankRel := fun a b => by
  unfold rankRel
  infer_instance

/-- `scoreSignals`: map then sort (a stable sort, like the JS runtime's). -/
def scoreSignals (now : String) (ss : List OpportunitySignal) :
    List TradingSignal :=
  List.insertionSort rankRel (ss.map (scoreSignal now))

/-- The pure candidate-to-ranked-signal part of `scan`: threshold filter,
dedup, score and rank. -/
def runPipeline (r : RiskConfig) (hasRecent : OpportunitySignal → Bool)
    (now : String) (ss : List OpportunitySignal) : List TradingSignal :=
  scoreSignals now (deduplicateSignals hasRecent (applyRiskFilters r ss))

/-- `scan`'s final `scored.slice(0, limit)` on the ranked list. -/
def scanSelect (r : RiskConfig) (hasRecent : OpportunitySignal → Bool)
    (now : String) (limit : ℕ) (ss : List OpportunitySignal) :
    List TradingSignal :=
  (runPipeline r hasRecent now ss).take limit

/-- Erase the wall-clock field of a `TradingSignal`. -/
def stripTime (t : TradingSignal) : TradingSignal := { t with loggedAt := "" }

/-! ## Cache (`src/cache.ts`) -/

/-- `CacheEntry`. -/
structure CacheEntry (α : Type) where
  data : α
  expiry : ℚ
  hits : ℕ
deriving Repr, DecidableEq

/-- The `Cache` object's state (store plus counters). -/
structure CacheState (α : Type) where
  store : List (String × CacheEntry α)
  defaultTtl : ℚ
  hits : ℕ := 0
  misses : ℕ := 0
  creditsSaved : ℚ := 0
deriving Repr, DecidableEq

/-- `Cache.get`: absent or expired (strictly past `expiry`) is a miss, and
an expired entry is deleted; a hit bumps both hit counters. -/
def Cache.get {α : Type} (st : CacheState α) (key : String) (now : ℚ) :
    Option α × CacheState α :=
  match mapGet st.store key with
  | none => (none, { st with misses := st.misses + 1 })
  | some e =>
    if e.expiry < now then
      (none, { st with store := mapDelete st.store key,
                       misses := st.misses + 1 })
    else
      (some e.data,
        { st with store := mapSet st.store key { e with hits := e.hits + 1 },
                  hits := st.hits + 1 })

/-- `Cache.set`: `ttlMs || this.defaultTtl` falls back to the default when
the given ttl is absent or `0` (JS truthiness); `credits` is accepted and
ignored, as in the source. -/
def Cache.set {α : Type} (st : CacheState α) (key : String) (data : α)
    (ttlMs : Option ℚ) (credits : ℚ) (now : ℚ) : CacheState α :=
  let ttl := match ttlMs with
    | some t => if t = 0 then st.defaultTtl else t
    | none => st.defaultTtl
  { st with store :=
      mapSet st.store key { data := data, expiry := now + ttl, hits := 0 } }

/-- `Cache.getOrFetch`: serve the unexpired cached value (crediting
`credits` to the savings counter) or invoke the fetcher and store its
result. `fetched` is the value the fetcher would produce and the returned
flag records whether the fetcher was invoked. -/
def Cache.getOrFetch {α : Type} (st : CacheState α) (key : String)
    (fetched : α) (ttlMs : Option ℚ) (credits : ℚ) (now : ℚ) :
    α × CacheState α × Bool :=
  match Cache.get st key now with
  | (some v, st1) =>
    (v, { st1 with creditsSaved := st1.creditsSaved + credits }, false)
  | (none, st1) => (fetched, Cache.set st1 key fetched ttlMs credits now, true)

/-! ## Rate limiter (`src/rate-limiter.ts`)

`acquire` is an async function whose successive `Date.now()` reads are
modelled by an explicit `clock : ℕ → ℚ`; the sleeps only advance the
clock. The wait loop gets fuel; a completed call is a `some` result. -/

/-- `RateLimiterConfig`. -/
structure RateLimiterConfig where
  maxTokens : ℚ
  refillRate : ℚ
  minDelayMs : ℚ
deriving Repr, DecidableEq

/-- The `RateLimiter` object's state. -/
structure RateLimiterState where
  tokens : ℚ
  lastRefill : ℚ
  lastRequest : ℚ := 0
  totalRequests : ℕ := 0
  throttledRequests : ℕ := 0
  totalWaitTimeMs : ℚ := 0
deriving Repr, DecidableEq

/-- Constructor state: a full bucket. -/
def RateLimiter.initState (cfg : RateLimiterConfig) (now : ℚ) :
    RateLimiterState :=
  { tokens := cfg.maxTokens, lastRefill := now }

/-- `refill`: continuous lazy refill, capped at `maxTokens`. -/
def RateLimiter.refill (cfg : RateLimiterConfig) (s : RateLimiterState)
    (now : ℚ) : RateLimiterState :=
  let elapsed := (now - s.lastRefill) / 1000
  { s with tokens := min cfg.maxTokens (s.tokens + elapsed * cfg.refillRate),
           lastRefill := now }

/-- `reset`: full bucket, cleared inter-request timer. -/
def RateLimiter.reset (cfg : RateLimiterConfig) (s : RateLimiterState)
    (now : ℚ) : RateLimiterState :=
  { s with tokens := cfg.maxTokens, lastRefill := now, lastRequest := 0 }

/-- The `while (this.tokens < cost)` wait loop of `acquire`: each pass
computes the sleep needed for the shortfall (plus the 10ms buffer), bumps
the throttled counter and refills at the next clock read. On exit it
deducts `cost` and stamps `lastRequest`. -/
def RateLimiter.acquireLoop (cfg : RateLimiterConfig) (cost : ℚ)
    (clock : ℕ → ℚ) :
    ℕ → ℕ → ℚ → RateLimiterState → Option (RateLimiterState × ℚ)
  | fuel, i, waitAcc, s =>
    if s.tokens < cost then
      match fuel with
      | 0 => none
      | fuel2 + 1 =>
        let tokensNeeded := cost - s.tokens
        let waitForTokens := tokensNeeded / cfg.refillRate * 1000
        let delay : ℚ := ((Int.ceil waitForTokens : ℤ) : ℚ) + 10
        RateLimiter.acquireLoop cfg cost clock fuel2 (i + 1)
          (waitAcc + delay)
          (RateLimiter.refill cfg
            { s with throttledRequests := s.throttledRequests + 1 }
            (clock (i + 1)))
    else
      some ({ s with tokens := s.tokens - cost,
                     lastRequest := clock (i + 1),
                     totalWaitTimeMs := s.totalWaitTimeMs + waitAcc },
            waitAcc)

/-- `acquire(cost)`: bump the request counter, refill, sleep out the
minimum inter-request delay, then run the wait loop. Returns the final
state and the accumulated wait time. -/
def RateLimiter.acquire (cfg : RateLimiterConfig) (cost : ℚ)
    (clock : ℕ → ℚ) (fuel : ℕ) (s : RateLimiterState) :
    Option (RateLimiterState × ℚ) :=
  let s0 := RateLimiter.refill cfg
    { s with totalRequests := s.totalRequests + 1 } (clock 0)
  let timeSince := clock 1 - s0.lastRequest
  let minWait : ℚ :=
    if timeSince < cfg.minDelayMs then cfg.minDelayMs - timeSince else 0
  RateLimiter.acquireLoop cfg cost clock fuel 1 minWait s0

/-- `canAcquire`: dry-run check after a refill pass. -/
def RateLimiter.canAcquire (cfg : RateLimiterConfig) (s : RateLimiterState)
    (now : ℚ) (cost : ℚ) : Bool × RateLimiterState :=
  let s1 := RateLimiter.refill cfg s now
  (decide (cost ≤ s1.tokens), s1)

/-- States reachable through the limiter's public operations (`acquire`
with a nonnegative cost, the refill pass shared by `canAcquire` and
`getStats`, and `reset`). -/
inductive Reachable (cfg : RateLimiterConfig) : RateLimiterState → Prop
  | init (now : ℚ) : Reachable cfg (RateLimiter.initState cfg now)
  | refillStep {s : RateLimiterState} (now : ℚ) :
      Reachable cfg s → Reachable cfg (RateLimiter.refill cfg s now)
  | acquireStep {s s2 : RateLimiterState} {w : ℚ} (cost : ℚ)
      (clock : ℕ → ℚ) (fuel : ℕ) (hcost : 0 ≤ cost)
      (h : RateLimiter.acquire cfg cost clock fuel s = some (s2, w)) :
      Reachable cfg s → Reachable cfg s2
  | resetStep {s : RateLimiterState} (now : ℚ) :
      Reachable cfg s → Reachable cfg (RateLimiter.reset cfg s now)

/-! ## Concrete sample data used by witnesses and counterexamples -/

/-- The spec's scenario candidate: `score 6`,
`buyers 10`, `sellers 2`, `netflow24h 150000` in its metrics. -/
def cand0 : OpportunitySignal :=
  { type := "accumulation", token := "X", symbol := "XS", chain := "base",
    score := 6, reason := "smart money accumulation",
    metrics := [("buyers", 10), ("sellers", 2), ("netflow24h", 150000)],
    timestamp := "2024-01-01T00:00:00Z" }

/-- Same chain+token as `cand0`, different mode and lower score. -/
def cand1 : OpportunitySignal :=
  { cand0 with score := 4, type := "breakout" }

/-- Same as `cand0` but a different token. -/
def cand2 : OpportunitySignal :=
  { cand0 with token := "Y" }

/-- A candidate whose `buyers` metric is present but `0`. -/
def candZeroBuyers : OpportunitySignal :=
  { cand0 with metrics := [("buyers", 0)] }

/-- A stored signal used in the outcome examples. -/
def sampleSig : LoggedSignal :=
  { signal := cand0, id := "i", loggedAt := "T0", acted := false }

/-- A one-signal store. -/
def sampleStore : Store := [("i", sampleSig)]

/-- The spec's outcome patch: `entryPrice 100`, `exitPrice 150`. -/
def patch100 : SignalOutcome :=
  { entryPrice := some 100, exitPrice := some 150 }

/-- A patch with a present-but-zero entry price and a caller-supplied pnl. -/
def patchZeroEntry : SignalOutcome :=
  { entryPrice := some 0, exitPrice := some 150, pnl := some 999 }

/-- A patch setting only the entry price. -/
def patchEntryOnly : SignalOutcome := { entryPrice := some 100 }

/-- A config whose ranked output should be cut to one signal. -/
def oneSignalConfig : RiskConfig :=
  { DEFAULT_RISK_CONFIG with maxSignalsPerScan := 1 }

/-- The `standard` rate-limit preset. -/
def standardPreset : RateLimiterConfig :=
  { maxTokens := 10, refillRate := 2, minDelayMs := 200 }

/-- The stub persisted-dedup predicate that rejects nothing (an empty
signal log). -/
def noRecent : OpportunitySignal → Bool := fun _ => false

/-- A fresh cache with the constructor's default ttl of 60000 ms. -/
def emptyCache : CacheState String := { store := [], defaultTtl := 60000 }

/-- `k` passes of the wait loop's refill (throttle bump plus refill at the
next clock read), starting at clock index `i`: the balance the loop sees
after `k` waits. -/
def throttleRefills (cfg : RateLimiterConfig) (clock : ℕ → ℚ) :
    ℕ → ℕ → RateLimiterState → RateLimiterState
  | 0, _, s => s
  | k + 1, i, s =>
    throttleRefills cfg clock k (i + 1)
      (RateLimiter.refill cfg
        { s with throttledRequests := s.throttledRequests + 1 }
        (clock (i + 1)))

/-- The state after one `acquire(1)` on a fresh `standard` limiter whose
clock reads all return `0`. -/
def demoState2 : RateLimiterState :=
  { tokens := 9, lastRefill := 0, lastRequest := 0, totalRequests := 1,
    throttledRequests := 0, totalWaitTimeMs := 200 }

/-! ## Lemmas on the association-list map -/

theorem mapGet_mapSet_self {α : Type} (st : List (String × α)) (k : String)
    (v : α) : mapGet (mapSet st k v) k = some v := by
  induction st with
  | nil => simp [mapGet, mapSet]
  | cons hd tl ih =>
    obtain ⟨k1, v1⟩ := hd
    by_cases h : k1 = k
    · simp [mapGet, mapSet, h]
    · simp [mapGet, mapSet, h, ih]

theorem mapGet_mapSet_ne {α : Type} (st : List (String × α)) (k k2 : String)
    (v : α) (h : k ≠ k2) : mapGet (mapSet st k v) k2 = mapGet st k2 := by
  induction st with
  | nil => simp [mapGet, mapSet, h]
  | cons hd tl ih =>
    obtain ⟨k1, v1⟩ := hd
    by_cases h1 : k1 = k
    · subst h1
      simp [mapGet, mapSet, h]
    · simp [mapGet, mapSet, h1, ih]

theorem countKey_mapSet_self {α : Type} (st : List (String × α))
    (k : String) (v : α) :
    countKey (mapSet st k v) k = max 1 (countKey st k) := by
  induction st with
  | nil => simp [countKey, mapSet]
  | cons hd tl ih =>
    obtain ⟨k1, v1⟩ := hd
    by_cases h : k1 = k
    · subst h
      simp [countKey, mapSet]
    · simp only [countKey, mapSet, if_neg h, ih]
      omega

theorem countKey_pos_of_mapGet {α : Type} (st : List (String × α))
    (k : String) (v : α) (h : mapGet st k = some v) :
    1 ≤ countKey st k := by
  induction st with
  | nil => simp [mapGet] at h
  | cons hd tl ih =>
    obtain ⟨k1, v1⟩ := hd
    by_cases h1 : k1 = k
    · simp [countKey, h1]
    · simp [mapGet, h1] at h
      have := ih h
      simp [countKey, h1]
      omega

theorem countKey_zero_of_mapGet_none {α : Type} (st : List (String × α))
    (k : String) (h : mapGet st k = none) : countKey st k = 0 := by
  induction st with
  | nil => simp [countKey]
  | cons hd tl ih =>
    obtain ⟨k1, v1⟩ := hd
    by_cases h1 : k1 = k
    · simp [mapGet, h1] at h
    · simp [mapGet, h1] at h
      simp [countKey, h1, ih h]

theorem countKey_zero_of_not_mem {α : Type} (st : List (String × α))
    (k : String) (h : k ∉ st.map Prod.fst) : countKey st k = 0 := by
  induction st with
  | nil => simp [countKey]
  | cons hd tl ih =>
    obtain ⟨k1, v1⟩ := hd
    simp only [List.map_cons, List.mem_cons] at h
    push_neg at h
    have h1 : k1 ≠ k := fun hk => h.1 hk.symm
    simp [countKey, h1, ih h.2]

theorem countKey_le_one_of_nodup {α : Type} (st : List (String × α))
    (k : String) (h : (st.map Prod.fst).Nodup) : countKey st k ≤ 1 := by
  induction st with
  | nil => simp [countKey]
  | cons hd tl ih =>
    obtain ⟨k1, v1⟩ := hd
    simp only [List.map_cons, List.nodup_cons] at h
    by_cases h1 : k1 = k
    · subst h1
      have := countKey_zero_of_not_mem tl k1 h.1
      simp [countKey, this]
    · simp only [countKey, if_neg h1]
      have := ih h.2
      omega

theorem mapGet_mem {α : Type} (st : List (String × α)) (k : String) (v : α)
    (h : mapGet st k = some v) : (k, v) ∈ st := by
  induction st with
  | nil => simp [mapGet] at h
  | cons hd tl ih =>
    obtain ⟨k1, v1⟩ := hd
    by_cases h1 : k1 = k
    · subst h1
      simp [mapGet] at h
      simp [h]
    · simp [mapGet, h1] at h
      exact List.mem_cons_of_mem _ (ih h)

/-! ## C1: recordOutcome merges and derives pnl -/

/-- Helper: when the merged outcome has nonzero entry and exit prices, the
derivation overwrites pnl and pnlPercent. -/
theorem derivePnl_of_nonzero (m : SignalOutcome) (e x : ℚ)
    (he : m.entryPrice = some e) (hx : m.exitPrice = some x)
    (he0 : e ≠ 0) (hx0 : x ≠ 0) :
    derivePnl m =
      { m with pnl := some (x - e),
               pnlPercent := some ((x - e) / e * 100) } := by
  unfold derivePnl
  rw [he, hx]
  simp [truthyNum, he0, hx0]

/-- C1 (amended: "present" means present and nonzero, matching the JS
truthiness test in the source): for every stored id, `recordOutcome`
replaces the signal's outcome by the patch merged over the existing
outcome (creating one if absent) followed by the pnl derivation, returns
that signal and stores it back under the same id; whenever the merged
outcome carries nonzero `entryPrice` and `exitPrice`, the result has
`pnl = exit - entry` and `pnlPercent = pnl / entry * 100`, overwriting any
caller-supplied pnl. -/
theorem recordOutcome_merges_and_derives (st : Store) (id : String)
    (patch : SignalOutcome) (sig : LoggedSignal)
    (h : mapGet st id = some sig) :
    SignalLog.recordOutcome st id patch =
      (some { sig with
                outcome := some (derivePnl (mergeOutcome sig.outcome patch)) },
       mapSet st id
         { sig with
             outcome := some (derivePnl (mergeOutcome sig.outcome patch)) }) ∧
    ∀ e x : ℚ,
      (mergeOutcome sig.outcome patch).entryPrice = some e →
      (mergeOutcome sig.outcome patch).exitPrice = some x →
      e ≠ 0 → x ≠ 0 →
      (derivePnl (mergeOutcome sig.outcome patch)).pnl = some (x - e) ∧
      (derivePnl (mergeOutcome sig.outcome patch)).pnlPercent =
        some ((x - e) / e * 100) := by
  constructor
  · unfold SignalLog.recordOutcome
    rw [h]
  · intro e x he hx he0 hx0
    rw [derivePnl_of_nonzero (mergeOutcome sig.outcome patch) e x he hx he0 hx0]
    constructor <;> rfl

/-- Witness: the spec example, recording `entryPrice 100` and
`exitPrice 150`, yields `pnl = 50` and `pnlPercent = 50`. -/
theorem recordOutcome_merges_and_derives_witness :
    mapGet sampleStore "i" = some sampleSig ∧
    (SignalLog.recordOutcome sampleStore "i" patch100).1 =
      some { sampleSig with
               outcome := some (derivePnl (mergeOutcome sampleSig.outcome
                 patch100)) } ∧
    (derivePnl (mergeOutcome sampleSig.outcome patch100)).pnl = some 50 ∧
    (derivePnl (mergeOutcome sampleSig.outcome patch100)).pnlPercent =
      some 50 := by
  have h := recordOutcome_merges_and_derives sampleStore "i" patch100
    sampleSig (by decide)
  refine ⟨by decide, ?_, ?_, ?_⟩
  · rw [h.1]
  · exact (h.2 100 150 (by decide) (by decide) (by decide) (by decide)).1.trans
      (by norm_num)
  · exact (h.2 100 150 (by decide) (by decide) (by decide) (by decide)).2.trans
      (by norm_num)

/-- Counterexample to C1 as stated: with a present-but-zero `entryPrice`
the merged outcome has both price fields present, yet `recordOutcome` keeps
the caller-supplied `pnl = 999` instead of recomputing
`exitPrice - entryPrice = 150`. -/
theorem recordOutcome_zero_entry_counterexample :
    ((SignalLog.recordOutcome sampleStore "i" patchZeroEntry).1.map
      (fun s => s.outcome.map
        (fun o => (o.entryPrice, o.exitPrice, o.pnl)))) =
      some (some (some 0, some 150, some 999)) ∧
    (999 : ℚ) ≠ 150 - 0 := by
  constructor
  · decide
  · norm_num

/-! ## C2: idempotent logging -/

/-- C2: logging the same candidate twice yields the same id both times
(namely the composite `chain:token:type:timestamp` key), the second call
returns the already-stored signal and leaves the store untouched, and the
store holds exactly one record for that id. -/
theorem log_idempotent (st : Store) (c : OpportunitySignal)
    (n1 n2 : String) (hwf : StoreWF st) :
    (SignalLog.log st c n1).1.id = generateId c ∧
    (SignalLog.log (SignalLog.log st c n1).2 c n2).1 =
      (SignalLog.log st c n1).1 ∧
    (SignalLog.log (SignalLog.log st c n1).2 c n2).2 =
      (SignalLog.log st c n1).2 ∧
    countKey (SignalLog.log st c n1).2 (generateId c) = 1 := by
  rcases hget : mapGet st (generateId c) with _ | existing
  · have hcnt0 : countKey st (generateId c) = 0 :=
      countKey_zero_of_mapGet_none st (generateId c) hget
    have hfst : SignalLog.log st c n1 =
        ({ signal := c, id := generateId c, loggedAt := n1, acted := false },
         mapSet st (generateId c)
           { signal := c, id := generateId c, loggedAt := n1,
             acted := false }) := by
      simp [SignalLog.log, hget]
    refine ⟨by rw [hfst], ?_, ?_, ?_⟩
    · rw [hfst]
      simp [SignalLog.log, mapGet_mapSet_self]
    · rw [hfst]
      simp [SignalLog.log, mapGet_mapSet_self]
    · rw [hfst]
      simp [countKey_mapSet_self, hcnt0]
  · have hmem := mapGet_mem st (generateId c) existing hget
    have hid : existing.id = generateId c := hwf.2 _ hmem
    have hfst : SignalLog.log st c n1 = (existing, st) := by
      simp [SignalLog.log, hget]
    have hcnt : countKey st (generateId c) = 1 := by
      have h1 := countKey_pos_of_mapGet st (generateId c) existing hget
      have h2 := countKey_le_one_of_nodup st (generateId c) hwf.1
      omega
    refine ⟨by rw [hfst, hid], ?_, ?_, ?_⟩
    · rw [hfst]
      simp [SignalLog.log, hget]
    · rw [hfst]
      simp [SignalLog.log, hget]
    · rw [hfst]
      exact hcnt

/-- Witness: C2 instantiated on the empty store with the sample candidate
and two distinct logging times. -/
theorem log_idempotent_witness :
    (SignalLog.log [] cand0 "T1").1.id = generateId cand0 ∧
    (SignalLog.log (SignalLog.log [] cand0 "T1").2 cand0 "T2").1 =
      (SignalLog.log [] cand0 "T1").1 ∧
    (SignalLog.log (SignalLog.log [] cand0 "T1").2 cand0 "T2").2 =
      (SignalLog.log [] cand0 "T1").2 ∧
    countKey (SignalLog.log [] cand0 "T1").2 (generateId cand0) = 1 :=
  log_idempotent [] cand0 "T1" "T2" ⟨List.nodup_nil, by simp⟩

/-! ## C4: forward-only transitions of a logged signal -/

theorem orKeep_isSome {β : Type} (pa ba : Option β)
    (h : ba.isSome = true) : (orKeep pa ba).isSome = true := by
  cases pa <;> simp [orKeep, h]

theorem outcomeLE_refl (o : Option SignalOutcome) : OutcomeLE o o := by
  cases o <;> simp [OutcomeLE]

theorem outcomeLE_trans (a b c : Option SignalOutcome)
    (h1 : OutcomeLE a b) (h2 : OutcomeLE b c) : OutcomeLE a c := by
  cases a with
  | none => trivial
  | some o =>
    cases b with
    | none => exact h1.elim
    | some o1 =>
      cases c with
      | none => exact h2.elim
      | some o2 =>
        exact ⟨fun h => h2.1 (h1.1 h),
          fun h => h2.2.1 (h1.2.1 h),
          fun h => h2.2.2.1 (h1.2.2.1 h),
          fun h => h2.2.2.2.1 (h1.2.2.2.1 h),
          fun h => h2.2.2.2.2.1 (h1.2.2.2.2.1 h),
          fun h => h2.2.2.2.2.2.1 (h1.2.2.2.2.2.1 h),
          fun h => h2.2.2.2.2.2.2 (h1.2.2.2.2.2.2 h)⟩

theorem outcomeLE_merge (o0 p : SignalOutcome) :
    OutcomeLE (some o0) (some (mergeOutcome (some o0) p)) := by
  simp only [OutcomeLE, mergeOutcome, Option.getD_some]
  exact ⟨fun h => orKeep_isSome p.action o0.action h,
   fun h => orKeep_isSome p.executedAt o0.executedAt h,
   fun h => orKeep_isSome p.entryPrice o0.entryPrice h,
   fun h => orKeep_isSome p.exitPrice o0.exitPrice h,
   fun h => orKeep_isSome p.pnl o0.pnl h,
   fun h => orKeep_isSome p.pnlPercent o0.pnlPercent h,
   fun h => orKeep_isSome p.notes o0.notes h⟩

theorem outcomeLE_derive (m : SignalOutcome) :
    OutcomeLE (some m) (some (derivePnl m)) := by
  unfold derivePnl
  split_ifs with hcond
  · simp only [OutcomeLE]
    exact ⟨fun h => h, fun h => h, fun h => h, fun h => h,
      fun _ => rfl, fun _ => rfl, fun h => h⟩
  · exact outcomeLE_refl (some m)

theorem outcomeLE_recordUpdate (old : Option SignalOutcome)
    (p : SignalOutcome) :
    OutcomeLE old (some (derivePnl (mergeOutcome old p))) := by
  cases old with
  | none => simp [OutcomeLE]
  | some o0 =>
    exact outcomeLE_trans _ _ _ (outcomeLE_merge o0 p)
      (outcomeLE_derive (mergeOutcome (some o0) p))

theorem sigFrameOK_refl (sig : LoggedSignal) : SigFrameOK sig sig :=
  ⟨rfl, rfl, rfl, fun h => h⟩

theorem sigFrameOK_trans (a b c : LoggedSignal) (h1 : SigFrameOK a b)
    (h2 : SigFrameOK b c) : SigFrameOK a c :=
  ⟨h2.1.trans h1.1, h2.2.1.trans h1.2.1, h2.2.2.1.trans h1.2.2.1,
   fun h => h2.2.2.2 (h1.2.2.2 h)⟩

/-- Effect of one mutating call on one stored signal: the frame is kept,
and a `recordOutcome` call only moves the outcome forward. -/
theorem applyOp_frame (st : Store) (op : StoreOp) (id : String)
    (sig : LoggedSignal) (h : mapGet st id = some sig) :
    ∃ sig2, mapGet (applyOp st op) id = some sig2 ∧ SigFrameOK sig sig2 ∧
      (op.isRecord = true → OutcomeLE sig.outcome sig2.outcome) := by
  cases op with
  | mark tid a n now =>
    by_cases hid : tid = id
    · subst hid
      refine ⟨{ sig with acted := true, outcome := some (SignalOutcome.mk (some a) (some now) none none none none n) },
        ?_, ⟨rfl, rfl, rfl, fun _ => rfl⟩, by simp [StoreOp.isRecord]⟩
      simp [applyOp, SignalLog.markActed, h, mapGet_mapSet_self]
    · rcases htgt : mapGet st tid with _ | target
      · refine ⟨sig, ?_, sigFrameOK_refl sig, by simp [StoreOp.isRecord]⟩
        simp [applyOp, SignalLog.markActed, htgt, h]
      · refine ⟨sig, ?_, sigFrameOK_refl sig, by simp [StoreOp.isRecord]⟩
        simp [applyOp, SignalLog.markActed, htgt,
          mapGet_mapSet_ne _ _ _ _ hid, h]
  | record tid p =>
    by_cases hid : tid = id
    · subst hid
      refine ⟨{ sig with
                outcome := some (derivePnl (mergeOutcome sig.outcome p)) },
        ?_, ⟨rfl, rfl, rfl, fun hh => hh⟩,
        fun _ => outcomeLE_recordUpdate sig.outcome p⟩
      simp [applyOp, SignalLog.recordOutcome, h, mapGet_mapSet_self]
    · rcases htgt : mapGet st tid with _ | target
      · refine ⟨sig, ?_, sigFrameOK_refl sig,
          fun _ => outcomeLE_refl sig.outcome⟩
        simp [applyOp, SignalLog.recordOutcome, htgt, h]
      · refine ⟨sig, ?_, sigFrameOK_refl sig,
          fun _ => outcomeLE_refl sig.outcome⟩
        simp [applyOp, SignalLog.recordOutcome, htgt,
          mapGet_mapSet_ne _ _ _ _ hid, h]

/-- C4 (amended: the forward-only guarantee for the outcome holds for
`recordOutcome` calls; `markActed` instead replaces the whole outcome with
the minimal record `action`/`executedAt`/`notes`, which can discard
previously set fields): under any sequence of `markActed`/`recordOutcome`
calls a stored signal keeps its candidate fields, id and logging time,
`acted` never transitions back from `true`, and under a sequence made of
`recordOutcome` calls only, every outcome field that was set stays set. -/
theorem signal_transitions_forward (st : Store) (ops : List StoreOp)
    (id : String) (sig : LoggedSignal) (h : mapGet st id = some sig) :
    ∃ sig2, mapGet (applyOps st ops) id = some sig2 ∧ SigFrameOK sig sig2 ∧
      ((∀ op ∈ ops, op.isRecord = true) →
        OutcomeLE sig.outcome sig2.outcome) := by
  induction ops generalizing st sig with
  | nil => exact ⟨sig, h, sigFrameOK_refl sig, fun _ => outcomeLE_refl _⟩
  | cons op ops ih =>
    obtain ⟨s1, h1, hf1, hr1⟩ := applyOp_frame st op id sig h
    obtain ⟨s2, h2, hf2, hr2⟩ := ih (applyOp st op) s1 h1
    refine ⟨s2, ?_, sigFrameOK_trans sig s1 s2 hf1 hf2, fun hall => ?_⟩
    · simpa [applyOps] using h2
    · exact outcomeLE_trans _ _ _
        (hr1 (hall op (List.mem_cons_self op ops)))
        (hr2 fun o ho => hall o (List.mem_cons_of_mem op ho))

/-- Witness: C4 (amended) instantiated on the sample store with one
`recordOutcome` call. -/
theorem signal_transitions_forward_witness :
    mapGet sampleStore "i" = some sampleSig ∧
    ∃ sig2,
      mapGet (applyOps sampleStore [StoreOp.record "i" patchEntryOnly])
        "i" = some sig2 ∧
      SigFrameOK sampleSig sig2 ∧
      ((∀ op ∈ [StoreOp.record "i" patchEntryOnly], op.isRecord = true) →
        OutcomeLE sampleSig.outcome sig2.outcome) :=
  ⟨by decide,
   signal_transitions_forward sampleStore
     [StoreOp.record "i" patchEntryOnly] "i" sampleSig (by decide)⟩

/-- Counterexample to C4 as stated: `recordOutcome` sets
`outcome.entryPrice = 100`, but a later `markActed` replaces the outcome
wholesale and the previously set `entryPrice` is reset to absent. -/
theorem markActed_resets_outcome_counterexample :
    ((mapGet (applyOps sampleStore
        [StoreOp.record "i" patchEntryOnly]) "i").map
      (fun s => s.outcome.map (fun o => o.entryPrice))) =
      some (some (some 100)) ∧
    ((mapGet (applyOps sampleStore
        [StoreOp.record "i" patchEntryOnly,
         StoreOp.mark "i" "buy" none "T2"]) "i").map
      (fun s => s.outcome.map (fun o => o.entryPrice))) =
      some (some none) := by
  constructor <;> decide

/-! ## C3: threshold filter -/

theorem buyersTrip_iff (r : RiskConfig) (s : OpportunitySignal) :
    buyersTrip r s = true ↔
      ∃ t v, r.minSmartMoneyBuyers = some t ∧ t ≠ 0 ∧
        getMetric s "buyers" = some v ∧ v ≠ 0 ∧ v < t := by
  unfold buyersTrip
  rcases hc : r.minSmartMoneyBuyers with _ | t <;>
    rcases hm : getMetric s "buyers" with _ | v <;> simp [and_assoc]

theorem netflowTrip_iff (r : RiskConfig) (s : OpportunitySignal) :
    netflowTrip r s = true ↔
      ∃ t v, r.minNetflowUsd = some t ∧ t ≠ 0 ∧
        getMetric s "netflow24h" = some v ∧ v ≠ 0 ∧ |v| < t := by
  unfold netflowTrip
  rcases hc : r.minNetflowUsd with _ | t <;>
    rcases hm : getMetric s "netflow24h" with _ | v <;> simp [and_assoc]

theorem freshTrip_iff (r : RiskConfig) (s : OpportunitySignal) :
    freshTrip r s = true ↔
      ∃ t v, r.minFreshWallets = some t ∧ t ≠ 0 ∧
        getMetric s "freshWallets" = some v ∧ v ≠ 0 ∧ v < t := by
  unfold freshTrip
  rcases hc : r.minFreshWallets with _ | t <;>
    rcases hm : getMetric s "freshWallets" with _ | v <;> simp [and_assoc]

theorem passesRiskFilter_eq_false_iff (r : RiskConfig)
    (s : OpportunitySignal) :
    passesRiskFilter r s = false ↔
      s.score < r.minScore ∨ buyersTrip r s = true ∨
        netflowTrip r s = true ∨ freshTrip r s = true := by
  unfold passesRiskFilter
  split_ifs <;> simp_all

/-- C3 (amended: in the source both "configured" and "present" mean
present and nonzero, because both sides of each guard are JS truthiness
tests): the threshold filter drops a candidate iff its score is below
`minScore`, or some metric threshold is configured with a nonzero value
and the corresponding metric is present and nonzero on the candidate and
below the threshold (`minNetflowUsd` comparing the metric's absolute
value); candidates whose metric is absent — or present with value `0` —
are never dropped by that metric's threshold. -/
theorem risk_filter_drops_iff (r : RiskConfig) (s : OpportunitySignal) :
    passesRiskFilter r s = false ↔
      s.score < r.minScore ∨
      (∃ t v, r.minSmartMoneyBuyers = some t ∧ t ≠ 0 ∧
        getMetric s "buyers" = some v ∧ v ≠ 0 ∧ v < t) ∨
      (∃ t v, r.minNetflowUsd = some t ∧ t ≠ 0 ∧
        getMetric s "netflow24h" = some v ∧ v ≠ 0 ∧ |v| < t) ∨
      (∃ t v, r.minFreshWallets = some t ∧ t ≠ 0 ∧
        getMetric s "freshWallets" = some v ∧ v ≠ 0 ∧ v < t) := by
  rw [passesRiskFilter_eq_false_iff, buyersTrip_iff, netflowTrip_iff,
    freshTrip_iff]

/-- Counterexample to C3 as stated: `candZeroBuyers` carries a present
`buyers` metric of `0`, strictly below the configured default threshold
`3`, and its score passes `minScore`; the claim says it must be dropped,
yet the filter keeps it. -/
theorem risk_filter_zero_metric_counterexample :
    getMetric candZeroBuyers "buyers" = some 0 ∧
    DEFAULT_RISK_CONFIG.minSmartMoneyBuyers = some 3 ∧
    (0 : ℚ) < 3 ∧
    ¬ candZeroBuyers.score < DEFAULT_RISK_CONFIG.minScore ∧
    passesRiskFilter DEFAULT_RISK_CONFIG candZeroBuyers = true ∧
    applyRiskFilters DEFAULT_RISK_CONFIG [candZeroBuyers] =
      [candZeroBuyers] := by
  refine ⟨by decide, by decide, by norm_num, by decide, by decide, by decide⟩

/-! ## C5: intra-batch dedup -/

/-- C5: two candidates with the same chain and token (regardless of mode),
neither rejected by the persisted-dedup predicate and with distinct
scores, reduce under intra-batch dedup to exactly the higher-scoring one;
the dedup key is chain+token only. -/
theorem dedup_keeps_highest (hasRecent : OpportunitySignal → Bool)
    (c1 c2 : OpportunitySignal)
    (hchain : c1.chain = c2.chain) (htoken : c1.token = c2.token)
    (h1 : hasRecent c1 = false) (h2 : hasRecent c2 = false)
    (hscore : c1.score ≠ c2.score) :
    deduplicateSignals hasRecent [c1, c2] =
      [if c1.score < c2.score then c2 else c1] := by
  have hk : dedupKey c2 = dedupKey c1 := by
    unfold dedupKey
    rw [hchain, htoken]
  unfold deduplicateSignals
  simp only [List.foldl_cons, List.foldl_nil]
  rw [show dedupStep hasRecent [] c1 = [(dedupKey c1, c1)] by
    simp [dedupStep, h1, mapGet, mapSet]]
  by_cases hlt : c1.score < c2.score
  · rw [if_pos hlt]
    simp [dedupStep, h2, hk, mapGet, mapSet, hlt]
  · rw [if_neg hlt]
    simp [dedupStep, h2, hk, mapGet, mapSet, hlt]

/-- Witness: C5 on the sample candidates, which share chain+token but
differ in mode: the higher-scoring `cand0` survives alone. -/
theorem dedup_keeps_highest_witness :
    cand1.type ≠ cand0.type ∧
    deduplicateSignals noRecent [cand1, cand0] = [cand0] := by
  constructor
  · decide
  · rw [dedup_keeps_highest noRecent cand1 cand0 rfl rfl rfl rfl
      (by decide)]
    decide

/-! ## C6: determinism of the scoring stage -/

theorem map_strip_orderedInsert (a : TradingSignal)
    (l : List TradingSignal) :
    (List.orderedInsert rankRel a l).map stripTime =
      List.orderedInsert rankRel (stripTime a) (l.map stripTime) := by
  induction l with
  | nil => simp [List.orderedInsert]
  | cons b t ih =>
    by_cases h : rankRel a b
    · have h2 : rankRel (stripTime a) (stripTime b) := h
      simp [List.orderedInsert, h, h2]
    · have h2 : ¬ rankRel (stripTime a) (stripTime b) := h
      simp [List.orderedInsert, h, h2, ih]

theorem map_strip_insertionSort (l : List TradingSignal) :
    (List.insertionSort rankRel l).map stripTime =
      List.insertionSort rankRel (l.map stripTime) := by
  induction l with
  | nil => simp
  | cons a t ih => simp [List.insertionSort, map_strip_orderedInsert, ih]

/-- C6 (amended: the scoring stage stamps each output with the wall-clock
`loggedAt`, so two runs agree on every field except possibly `loggedAt`;
runs at the same clock reading are identical outright): the pipeline is a
pure function of the candidate list, the config, the stub dedup predicate
and the clock reading. -/
theorem pipeline_deterministic_modulo_time (r : RiskConfig)
    (hasRecent : OpportunitySignal → Bool) (n1 n2 : String)
    (ss : List OpportunitySignal) :
    (runPipeline r hasRecent n1 ss).map stripTime =
      (runPipeline r hasRecent n2 ss).map stripTime := by
  unfold runPipeline scoreSignals
  rw [map_strip_insertionSort, map_strip_insertionSort]
  rw [List.map_map, List.map_map]
  have hfun : stripTime ∘ scoreSignal n1 = stripTime ∘ scoreSignal n2 :=
    funext fun s => rfl
  rw [hfun]

/-- Counterexample to C6 as stated: the same candidates, config and stub
predicate at two clock readings give outputs differing in the `loggedAt`
field, so the outputs are not identical in every field. -/
theorem pipeline_time_counterexample :
    (runPipeline DEFAULT_RISK_CONFIG noRecent "T1" [cand0]).map
        (fun t => t.loggedAt) = ["T1"] ∧
    (runPipeline DEFAULT_RISK_CONFIG noRecent "T2" [cand0]).map
        (fun t => t.loggedAt) = ["T2"] ∧
    runPipeline DEFAULT_RISK_CONFIG noRecent "T1" [cand0] ≠
      runPipeline DEFAULT_RISK_CONFIG noRecent "T2" [cand0] := by
  refine ⟨by decide, by decide, fun hEq => ?_⟩
  have h2 := congrArg (List.map (fun t : TradingSignal => t.loggedAt)) hEq
  rw [show (runPipeline DEFAULT_RISK_CONFIG noRecent "T1" [cand0]).map
      (fun t => t.loggedAt) = ["T1"] by decide] at h2
  rw [show (runPipeline DEFAULT_RISK_CONFIG noRecent "T2" [cand0]).map
      (fun t => t.loggedAt) = ["T2"] by decide] at h2
  exact absurd h2 (by decide)

/-! ## C7: scoring scenario and the recommendation ladder -/

theorem recommendation_ladder (rs : ℤ) :
    (3 ≤ rs → recommendationOf rs = "strong_buy" ∧
      confidenceOf rs = 8/10) ∧
    (1 ≤ rs ∧ rs < 3 → recommendationOf rs = "buy" ∧
      confidenceOf rs = 6/10) ∧
    (0 ≤ rs ∧ rs < 1 → recommendationOf rs = "watch" ∧
      confidenceOf rs = 4/10) ∧
    (rs < 0 → recommendationOf rs = "avoid" ∧
      confidenceOf rs = 3/10) := by
  unfold recommendationOf confidenceOf
  refine ⟨fun h => ?_, fun h => ?_, fun h => ?_, fun h => ?_⟩ <;>
    split_ifs <;> first | exact ⟨rfl, rfl⟩ | omega

/-- C7: on the spec's scenario candidate under the default config, the
pipeline emits exactly one signal with `riskScore = 4`,
`recommendation = strong_buy`, `confidence = 0.8` and both the
"Strong buyer/seller ratio" and "High netflow" factors; and in general the
recommendation/confidence of every scored signal follow the
`riskScore >= 3 / >= 1 / >= 0 / < 0` ladder. -/
theorem scenario_strong_buy (c : OpportunitySignal) (now : String) :
    (runPipeline DEFAULT_RISK_CONFIG noRecent now [cand0]).map
        (fun t => (t.riskScore, t.recommendation, t.confidence,
          t.riskFactors)) =
      [(4, "strong_buy", 8/10,
        ["Strong buyer/seller ratio", "High netflow"])] ∧
    (3 ≤ (scoreSignal now c).riskScore →
      (scoreSignal now c).recommendation = "strong_buy" ∧
      (scoreSignal now c).confidence = 8/10) ∧
    (1 ≤ (scoreSignal now c).riskScore ∧ (scoreSignal now c).riskScore < 3 →
      (scoreSignal now c).recommendation = "buy" ∧
      (scoreSignal now c).confidence = 6/10) ∧
    (0 ≤ (scoreSignal now c).riskScore ∧ (scoreSignal now c).riskScore < 1 →
      (scoreSignal now c).recommendation = "watch" ∧
      (scoreSignal now c).confidence = 4/10) ∧
    ((scoreSignal now c).riskScore < 0 →
      (scoreSignal now c).recommendation = "avoid" ∧
      (scoreSignal now c).confidence = 3/10) := by
  have h := recommendation_ladder (riskScoreOf c)
  refine ⟨?_, h.1, h.2.1, h.2.2.1, h.2.2.2⟩
  norm_num +decide [runPipeline, scoreSignals, scoreSignal, deduplicateSignals,
    dedupStep, dedupKey, applyRiskFilters, passesRiskFilter, buyersTrip,
    netflowTrip, freshTrip, getMetric, mapGet, mapSet, cand0,
    DEFAULT_RISK_CONFIG, noRecent, riskScoreOf, riskFactorsOf, scoreBase,
    ratioBoost, netflowBoost, sellerPenalty, recommendationOf,
    confidenceOf, List.insertionSort, List.orderedInsert]

/-- Witness: the scenario candidate scores `riskScore = 4 ≥ 3` and indeed
gets `strong_buy` at confidence `0.8`. -/
theorem scenario_strong_buy_witness :
    3 ≤ (scoreSignal "T" cand0).riskScore ∧
    (scoreSignal "T" cand0).recommendation = "strong_buy" ∧
    (scoreSignal "T" cand0).confidence = 8/10 := by
  have h := scenario_strong_buy cand0 "T"
  have hrs : (scoreSignal "T" cand0).riskScore = 4 := by
    show riskScoreOf cand0 = 4
    norm_num +decide [riskScoreOf, scoreBase, ratioBoost, netflowBoost,
      sellerPenalty, getMetric, mapGet, cand0]
  have h3 : 3 ≤ (scoreSignal "T" cand0).riskScore := by
    rw [hrs]
    norm_num
  exact ⟨h3, (h.2.1 h3).1, (h.2.1 h3).2⟩

/-! ## C10: ranked output, sortedness and truncation -/

instance : IsTotal TradingSignal rankRel :=
  ⟨fun a b => by
    unfold rankRel
    rcases lt_trichotomy a.riskScore b.riskScore with h | h | h
    · exact Or.inr (Or.inl h)
    · rcases le_total b.signal.score a.signal.score with hs | hs
      · exact Or.inl (Or.inr ⟨h, hs⟩)
      · exact Or.inr (Or.inr ⟨h.symm, hs⟩)
    · exact Or.inl (Or.inl h)⟩

instance : IsTrans TradingSignal rankRel :=
  ⟨fun a b c hab hbc => by
    unfold rankRel at *
    rcases hab with h1 | ⟨h1, h2⟩ <;> rcases hbc with h3 | ⟨h3, h4⟩
    · exact Or.inl (lt_trans h3 h1)
    · exact Or.inl (by omega)
    · exact Or.inl (by omega)
    · exact Or.inr ⟨h1.trans h3, le_trans h4 h2⟩⟩

/-- C10 (amended: the output is truncated to the scan's `limit` argument,
which defaults to `maxSignalsPerScan`; with the default limit the output
has at most `maxSignalsPerScan` elements): the returned list is sorted by
`riskScore` descending with ties broken by raw `score` descending, has at
most `limit` elements, and is a prefix of the fully sorted ranked list
(truncation happens after sorting). -/
theorem scan_sorted_truncated (r : RiskConfig)
    (hasRecent : OpportunitySignal → Bool) (now : String) (limit : ℕ)
    (ss : List OpportunitySignal) :
    List.Sorted rankRel (runPipeline r hasRecent now ss) ∧
    List.Sorted rankRel (scanSelect r hasRecent now limit ss) ∧
    (scanSelect r hasRecent now limit ss).length ≤ limit ∧
    List.IsPrefix (scanSelect r hasRecent now limit ss)
      (runPipeline r hasRecent now ss) ∧
    (scanSelect r hasRecent now r.maxSignalsPerScan ss).length ≤
      r.maxSignalsPerScan := by
  have hs : List.Sorted rankRel (runPipeline r hasRecent now ss) :=
    List.sorted_insertionSort rankRel _
  refine ⟨hs, ?_, ?_, ?_, ?_⟩
  · exact List.Pairwise.sublist (List.take_sublist _ _) hs
  · exact List.length_take_le _ _
  · exact List.take_prefix _ _
  · exact List.length_take_le _ _

/-- Counterexample to C10 as stated: with `maxSignalsPerScan = 1` but the
scan's `limit` option set to `2`, two surviving candidates both come back
— the output size is bounded by `limit`, not by `maxSignalsPerScan`. -/
theorem scan_limit_counterexample :
    oneSignalConfig.maxSignalsPerScan = 1 ∧
    (scanSelect oneSignalConfig noRecent "T" 2 [cand0, cand2]).length
      = 2 := by
  constructor
  · rfl
  · norm_num +decide [scanSelect, runPipeline, scoreSignals, scoreSignal,
      deduplicateSignals, dedupStep, dedupKey, applyRiskFilters,
      passesRiskFilter, buyersTrip, netflowTrip, freshTrip, getMetric,
      mapGet, mapSet, cand0, cand2, oneSignalConfig, DEFAULT_RISK_CONFIG,
      noRecent, riskScoreOf, riskFactorsOf, scoreBase, ratioBoost,
      netflowBoost, sellerPenalty, recommendationOf, confidenceOf,
      suggestedActionOf, List.insertionSort, List.orderedInsert, rankRel]

/-! ## C8: cache getOrFetch -/

/-- C8: on a fresh key, the first `getOrFetch` invokes the fetcher and
stores its value; a second call within `ttl` of the store (boundary
included — the source expires strictly after `expiry`) serves the cached
value without fetching, while a second call more than `ttl` after the
store fetches again. -/
theorem getOrFetch_single_fetch {α : Type} (st : CacheState α)
    (key : String) (v1 v2 : α) (ttl cr t1 t2 : ℚ)
    (hfresh : mapGet st.store key = none) (httl : ttl ≠ 0) :
    (Cache.getOrFetch st key v1 (some ttl) cr t1).2.2 = true ∧
    (Cache.getOrFetch st key v1 (some ttl) cr t1).1 = v1 ∧
    (t2 ≤ t1 + ttl →
      (Cache.getOrFetch (Cache.getOrFetch st key v1 (some ttl) cr t1).2.1
        key v2 (some ttl) cr t2).2.2 = false ∧
      (Cache.getOrFetch (Cache.getOrFetch st key v1 (some ttl) cr t1).2.1
        key v2 (some ttl) cr t2).1 = v1) ∧
    (t1 + ttl < t2 →
      (Cache.getOrFetch (Cache.getOrFetch st key v1 (some ttl) cr t1).2.1
        key v2 (some ttl) cr t2).2.2 = true ∧
      (Cache.getOrFetch (Cache.getOrFetch st key v1 (some ttl) cr t1).2.1
        key v2 (some ttl) cr t2).1 = v2) := by
  have hget1 : Cache.get st key t1 =
      (none, { st with misses := st.misses + 1 }) := by
    simp [Cache.get, hfresh]
  have h1 : Cache.getOrFetch st key v1 (some ttl) cr t1 =
      (v1, Cache.set { st with misses := st.misses + 1 } key v1 (some ttl)
        cr t1, true) := by
    simp [Cache.getOrFetch, hget1]
  have hstore : (Cache.set { st with misses := st.misses + 1 } key v1
      (some ttl) cr t1).store =
      mapSet st.store key { data := v1, expiry := t1 + ttl, hits := 0 } := by
    simp [Cache.set, httl]
  have hget2 : mapGet (Cache.set { st with misses := st.misses + 1 } key v1
      (some ttl) cr t1).store key =
      some { data := v1, expiry := t1 + ttl, hits := 0 } := by
    rw [hstore]
    exact mapGet_mapSet_self _ _ _
  refine ⟨by rw [h1], by rw [h1], fun hle => ?_, fun hlt => ?_⟩
  · have hnot : ¬ (t1 + ttl < t2) := not_lt.mpr hle
    rw [h1]
    constructor <;> simp [Cache.getOrFetch, Cache.get, hget2, hnot]
  · rw [h1]
    constructor <;> simp [Cache.getOrFetch, Cache.get, hget2, hlt]

/-- Witness: on an empty cache with ttl 1000ms, a refetch at `t = 500`
serves the cached value without fetching, and a refetch at `t = 2000`
fetches anew. -/
theorem getOrFetch_single_fetch_witness :
    mapGet emptyCache.store "k" = none ∧ (1000 : ℚ) ≠ 0 ∧
    (500 : ℚ) ≤ 0 + 1000 ∧ (0 : ℚ) + 1000 < 2000 ∧
    (Cache.getOrFetch emptyCache "k" "a" (some 1000) 1 0).2.2 = true ∧
    (Cache.getOrFetch
      (Cache.getOrFetch emptyCache "k" "a" (some 1000) 1 0).2.1
      "k" "b" (some 1000) 1 500).2.2 = false ∧
    (Cache.getOrFetch
      (Cache.getOrFetch emptyCache "k" "a" (some 1000) 1 0).2.1
      "k" "b" (some 1000) 1 500).1 = "a" ∧
    (Cache.getOrFetch
      (Cache.getOrFetch emptyCache "k" "a" (some 1000) 1 0).2.1
      "k" "b" (some 1000) 1 2000).2.2 = true ∧
    (Cache.getOrFetch
      (Cache.getOrFetch emptyCache "k" "a" (some 1000) 1 0).2.1
      "k" "b" (some 1000) 1 2000).1 = "b" := by
  have h := getOrFetch_single_fetch emptyCache "k" "a" "b" 1000 1 0 500
    rfl (by norm_num)
  have h2 := getOrFetch_single_fetch emptyCache "k" "a" "b" 1000 1 0 2000
    rfl (by norm_num)
  exact ⟨rfl, by norm_num, by norm_num, by norm_num, h.1,
    (h.2.2.1 (by norm_num)).1, (h.2.2.1 (by norm_num)).2,
    (h2.2.2.2 (by norm_num)).1, (h2.2.2.2 (by norm_num)).2⟩

/-! ## C9: rate limiter conservation -/

theorem refill_le_max (cfg : RateLimiterConfig) (s : RateLimiterState)
    (now : ℚ) : (RateLimiter.refill cfg s now).tokens ≤ cfg.maxTokens := by
  show min cfg.maxTokens _ ≤ cfg.maxTokens
  exact min_le_left _ _

theorem acquireLoop_le_max (cfg : RateLimiterConfig) (cost : ℚ)
    (clock : ℕ → ℚ) (hcost : 0 ≤ cost) :
    ∀ (fuel i : ℕ) (w : ℚ) (s s2 : RateLimiterState) (w2 : ℚ),
      s.tokens ≤ cfg.maxTokens →
      RateLimiter.acquireLoop cfg cost clock fuel i w s = some (s2, w2) →
      s2.tokens ≤ cfg.maxTokens := by
  intro fuel
  induction fuel with
  | zero =>
    intro i w s s2 w2 hle h
    unfold RateLimiter.acquireLoop at h
    by_cases hlt : s.tokens < cost
    · simp [hlt] at h
    · simp [hlt] at h
      obtain ⟨hs, _⟩ := h
      rw [← hs]
      show s.tokens - cost ≤ cfg.maxTokens
      linarith
  | succ n ih =>
    intro i w s s2 w2 hle h
    unfold RateLimiter.acquireLoop at h
    by_cases hlt : s.tokens < cost
    · simp only [if_pos hlt] at h
      exact ih _ _ _ _ _ (refill_le_max cfg _ _) h
    · simp [hlt] at h
      obtain ⟨hs, _⟩ := h
      rw [← hs]
      show s.tokens - cost ≤ cfg.maxTokens
      linarith

theorem acquire_le_max (cfg : RateLimiterConfig) (cost : ℚ)
    (clock : ℕ → ℚ) (fuel : ℕ) (s s2 : RateLimiterState) (w : ℚ)
    (hcost : 0 ≤ cost)
    (h : RateLimiter.acquire cfg cost clock fuel s = some (s2, w)) :
    s2.tokens ≤ cfg.maxTokens := by
  simp only [RateLimiter.acquire] at h
  exact acquireLoop_le_max cfg cost clock hcost fuel 1 _ _ s2 w
    (refill_le_max cfg _ _) h

theorem acquireLoop_deducts (cfg : RateLimiterConfig) (cost : ℚ)
    (clock : ℕ → ℚ) :
    ∀ (fuel i : ℕ) (w : ℚ) (s s2 : RateLimiterState) (w2 : ℚ),
      RateLimiter.acquireLoop cfg cost clock fuel i w s = some (s2, w2) →
      ∃ k, cost ≤ (throttleRefills cfg clock k i s).tokens ∧
        s2.tokens = (throttleRefills cfg clock k i s).tokens - cost := by
  intro fuel
  induction fuel with
  | zero =>
    intro i w s s2 w2 h
    unfold RateLimiter.acquireLoop at h
    by_cases hlt : s.tokens < cost
    · simp [hlt] at h
    · simp [hlt] at h
      obtain ⟨hs, _⟩ := h
      refine ⟨0, ?_, ?_⟩
      · simpa [throttleRefills] using not_lt.mp hlt
      · rw [← hs]
        simp [throttleRefills]
  | succ n ih =>
    intro i w s s2 w2 h
    unfold RateLimiter.acquireLoop at h
    by_cases hlt : s.tokens < cost
    · simp only [if_pos hlt] at h
      obtain ⟨k, hk1, hk2⟩ := ih (i + 1) _ _ s2 w2 h
      exact ⟨k + 1, by simpa [throttleRefills] using hk1,
        by simpa [throttleRefills] using hk2⟩
    · simp [hlt] at h
      obtain ⟨hs, _⟩ := h
      refine ⟨0, ?_, ?_⟩
      · simpa [throttleRefills] using not_lt.mp hlt
      · rw [← hs]
        simp [throttleRefills]

/-- C9: every state reachable through the limiter's operations (a fresh
limiter, refill passes, completed nonnegative-cost `acquire` calls and
`reset`) has at most `maxTokens` tokens; and a completed `acquire(cost)`
leaves exactly `cost` fewer tokens than the refilled balance the wait
loop saw at the moment of deduction (some number `k` of throttle/refill
passes after the initial refill). -/
theorem rate_limiter_conservation (cfg : RateLimiterConfig) :
    (∀ s : RateLimiterState, Reachable cfg s →
      s.tokens ≤ cfg.maxTokens) ∧
    (∀ (cost : ℚ) (clock : ℕ → ℚ) (fuel : ℕ) (s s2 : RateLimiterState)
      (w : ℚ),
      RateLimiter.acquire cfg cost clock fuel s = some (s2, w) →
      ∃ k, cost ≤ (throttleRefills cfg clock k 1
          (RateLimiter.refill cfg { s with totalRequests := s.totalRequests + 1 } (clock 0))).tokens ∧
        s2.tokens = (throttleRefills cfg clock k 1
          (RateLimiter.refill cfg { s with totalRequests := s.totalRequests + 1 } (clock 0))).tokens - cost) := by
  constructor
  · intro s h
    induction h with
    | init now => simp [RateLimiter.initState]
    | refillStep now _ _ => exact refill_le_max cfg _ _
    | acquireStep cost clock fuel hcost hacq _ _ =>
      exact acquire_le_max cfg cost clock fuel _ _ _ hcost hacq
    | resetStep now _ _ => simp [RateLimiter.reset]
  · intro cost clock fuel s s2 w h
    simp only [RateLimiter.acquire] at h
    exact acquireLoop_deducts cfg cost clock fuel 1 _ _ s2 w h

/-- Witness: one `acquire(1)` on a fresh `standard` limiter with all
clock reads at `0` completes immediately, leaving `9 = 10 - 1` tokens;
the fresh limiter itself respects the cap. -/
theorem rate_limiter_conservation_witness :
    (RateLimiter.initState standardPreset 0).tokens ≤
      standardPreset.maxTokens ∧
    RateLimiter.acquire standardPreset 1 (fun _ => 0) 0
      (RateLimiter.initState standardPreset 0) = some (demoState2, 200) ∧
    ∃ t : ℚ, 1 ≤ t ∧ demoState2.tokens = t - 1 := by
  have hacq : RateLimiter.acquire standardPreset 1 (fun _ => 0) 0
      (RateLimiter.initState standardPreset 0) = some (demoState2, 200) := by
    norm_num [RateLimiter.acquire, RateLimiter.acquireLoop,
      RateLimiter.refill, RateLimiter.initState, standardPreset, demoState2]
  refine ⟨(rate_limiter_conservation standardPreset).1 _
    (Reachable.init 0), hacq, ?_⟩
  obtain ⟨k, hk1, hk2⟩ := (rate_limiter_conservation standardPreset).2 1
    (fun _ => 0) 0 _ demoState2 200 hacq
  exact ⟨_, hk1, hk2⟩

end NansenSkill
